import Mathlib

/-!
Verification of the analytics core of the Personal Finance Dashboard
(`app.py`): the Aggregator (`compute_summary` and the chart aggregations),
the Health Scorer (`financial_health_score`), the Insight Generator
(`generate_insights`) and the CSV import normalization.

Modelling conventions:
* A stored transaction row (`entries` table) is an `Entry`; its `type` is the
  raw string stored by `add_entry` (the analytics compare it against the
  literals "Income" / "Expense", exactly as the pandas filters do).
* Money amounts are rationals (`ℚ`), standing for the real-valued arithmetic
  of the source.
* Dates are day indices (`ℕ`), with day 0 a Monday, so that the weekday of a
  date is its index mod 7 (`pd.to_datetime(...).dt.day_name()`).
* The first day of the current month (`date.today().replace(day=1)`) is an
  explicit parameter `thisMonth`, and the calendar-month projection used by
  the monthly grouping is an explicit parameter `monthOf`.
* The insight strings of `generate_insights` are represented by the
  structured `Insight` datatype: one constructor per f-string of the source,
  carrying the interpolated values (category, ratios, amounts); the textual
  templating is presentation-only.
-/

/-- One row of the `entries` table as the analytics see it:
`type` (raw string), `amount`, `category`, `date` (day index, day 0 = Monday). -/
structure Entry where
  type : String
  amount : ℚ
  category : String
  date : ℕ

deriving instance DecidableEq, Repr for Entry

/-- `df[df['type']=='Income']['amount'].sum()`. -/
def totalIncome (df : List Entry) : ℚ :=
  ((df.filter (fun x => x.type == "Income")).map (fun x => x.amount)).sum

/-- `df[df['type']=='Expense']['amount'].sum()`. -/
def totalExpenses (df : List Entry) : ℚ :=
  ((df.filter (fun x => x.type == "Expense")).map (fun x => x.amount)).sum

/-- `compute_summary` (app.py, lines 87–91): income, expenses and savings
totals, each guarded by the `if not df.empty else 0.0` of the source. -/
def compute_summary (df : List Entry) : ℚ × ℚ × ℚ :=
  let income := if df.isEmpty then 0 else totalIncome df
  let expenses := if df.isEmpty then 0 else totalExpenses df
  let savings := income - expenses
  (income, expenses, savings)

/-- Python `int()` on a float truncates toward zero. -/
def pyInt (q : ℚ) : ℤ :=
  if q < 0 then ⌈q⌉ else ⌊q⌋

/-- `financial_health_score` (app.py, lines 93–98). -/
def financial_health_score (income expenses : ℚ) : ℤ :=
  if income ≤ 0 then 0
  else
    let save_ratio := max 0 ((income - expenses) / income)
    let score := pyInt (save_ratio * 100)
    min (max score 0) 100

/-- Canonical weekday names, Monday→Sunday: the reindex list of app.py
line 310. -/
def weekdayNames : List String :=
  ["Monday", "Tuesday", "Wednesday", "Thursday", "Friday", "Saturday", "Sunday"]

/-- `pd.to_datetime(df['date']).dt.day_name()`: with day 0 a Monday, the
weekday name of a day index is its index mod 7. -/
def dayName (d : ℕ) : String :=
  weekdayNames.getD (d % 7) ""

/-- Summed Expense amount on one weekday (one cell of the
`groupby('weekday')['amount'].sum()` of line 309, with 0 for a weekday the
`reindex(...).fillna(0)` fills in). -/
def weekdaySum (df : List Entry) (w : String) : ℚ :=
  ((df.filter (fun x => x.type == "Expense" && dayName x.date == w)).map (fun x => x.amount)).sum

/-- The heatmap aggregation (app.py, lines 307–310): Expense sums grouped by
weekday, reindexed over the 7 canonical names, missing weekdays filled
with 0. -/
def expense_by_weekday (df : List Entry) : List (String × ℚ) :=
  weekdayNames.map (fun w => (w, weekdaySum df w))

/-- The summed Expense amount of one category: one cell of the
`groupby('category')['amount'].sum()` of app.py line 103. -/
def catSum (df : List Entry) (c : String) : ℚ :=
  ((df.filter (fun x => x.type == "Expense" && x.category == c)).map (fun x => x.amount)).sum

/-- The distinct categories of the Expense entries, in order of first
appearance. -/
def expenseCats (df : List Entry) : List String :=
  ((df.filter (fun x => x.type == "Expense")).map (fun x => x.category)).dedup

/-- The group keys of `groupby('category')`: the distinct Expense categories
in ascending name order (pandas sorts group keys). -/
def sortCats (df : List Entry) : List String :=
  List.insertionSort (fun a b => a ≤ b) (expenseCats df)

/-- First maximizer of `v` in list order (starting from `b`): the head of a
stable descending-by-`v` sort of `b :: l`. -/
def pickMax (v : String → ℚ) (b : String) (l : List String) : String :=
  l.foldl (fun best x => if v x > v best then x else best) b

/-- `exp_df.sort_values(ascending=False).index[0]` (app.py, lines 103–104):
the head of the stable descending-by-value sort of the name-sorted category
sums, i.e. the first maximizer of `catSum` in name order; `none` when there
are no Expense entries. -/
def topCategory (df : List Entry) : Option String :=
  match sortCats df with
  | [] => none
  | c :: cs => some (pickMax (catSum df) c cs)

/-- `groupby('category')['amount'].sum()` as an association list (name order;
the value-descending view is consumed only through `topCategory`). -/
def expense_by_category (df : List Entry) : List (String × ℚ) :=
  (sortCats df).map (fun c => (c, catSum df c))

/-- Summed Expense amount of one calendar month, for an explicit month
projection `monthOf`. -/
def monthSum (monthOf : ℕ → ℕ) (df : List Entry) (m : ℕ) : ℚ :=
  ((df.filter (fun x => x.type == "Expense" && monthOf x.date == m)).map (fun x => x.amount)).sum

/-- The monthly bar-chart aggregation (app.py, lines 291–292): Expense sums
grouped by calendar month. -/
def expense_by_month (monthOf : ℕ → ℕ) (df : List Entry) : List (ℕ × ℚ) :=
  (((df.filter (fun x => x.type == "Expense")).map (fun x => monthOf x.date)).dedup).map
    (fun m => (m, monthSum monthOf df m))

/-- `df['type']=='Expense').any()`. -/
def hasExpense (df : List Entry) : Bool :=
  df.any (fun x => x.type == "Expense")

/-- One insight message of `generate_insights`: a constructor per f-string of
app.py lines 107–121, carrying the interpolated values (the textual
templating is presentation-only). -/
inductive Insight where
  | topWarn (category : String) (pct : ℚ)
  | topOk (category : String) (pct : ℚ)
  | budgetAlert (budget spent : ℚ)
  | budgetOk (pct spent budget : ℚ)
  | lowSavings
  | fallback

deriving instance DecidableEq, Repr for Insight

/-- The top-category rule of `generate_insights` (app.py, lines 102–109). -/
def topCategoryRule (df : List Entry) (expenses : ℚ) : List Insight :=
  if !df.isEmpty && hasExpense df then
    match topCategory df with
    | none => []
    | some top_cat =>
      let top_pct := if expenses > 0 then catSum df top_cat / expenses else 0
      if top_pct > 2/5 then [Insight.topWarn top_cat top_pct]
      else [Insight.topOk top_cat top_pct]
  else []

/-- Current-month Expense total (app.py, line 112), with the first day of the
current month passed in as the day index `thisMonth`. -/
def monthlyExpenses (df : List Entry) (thisMonth : ℕ) : ℚ :=
  if df.isEmpty then 0
  else ((df.filter (fun x => x.type == "Expense" && decide (thisMonth ≤ x.date))).map
    (fun x => x.amount)).sum

/-- The budget rule of `generate_insights` (app.py, lines 110–117). -/
def budgetRule (df : List Entry) (budget : Option ℚ) (thisMonth : ℕ) : List Insight :=
  match budget with
  | none => []
  | some b =>
    let monthly_exp := monthlyExpenses df thisMonth
    if monthly_exp > b then [Insight.budgetAlert b monthly_exp]
    else [Insight.budgetOk (if b > 0 then monthly_exp / b else 0) monthly_exp b]

/-- The low-savings rule of `generate_insights` (app.py, lines 118–119); the
`income > 0` conjunct is evaluated first (Python short-circuits the
division). -/
def lowSavingsRule (income expenses : ℚ) : List Insight :=
  if income > 0 ∧ (income - expenses) / income < 1/20 then [Insight.lowSavings] else []

/-- `generate_insights` (app.py, lines 100–122): the three rules in order,
then the fallback if none of them produced a message. -/
def generate_insights (df : List Entry) (income expenses : ℚ) (budget : Option ℚ)
    (thisMonth : ℕ) : List Insight :=
  let insights :=
    topCategoryRule df expenses ++ budgetRule df budget thisMonth ++
      lowSavingsRule income expenses
  if insights.isEmpty then [Insight.fallback] else insights

/-- Python `str.capitalize()`: first character uppercased, the rest
lowercased. -/
def pyCapitalize (s : String) : String :=
  match s.data with
  | [] => ""
  | c :: cs => String.mk (c.toUpper :: cs.map Char.toLower)

/-- One iteration of the CSV import loop (app.py, lines 196–201):
`ttype = str(row['type']).capitalize()` followed by an unconditional
`add_entry` — the row is stored whatever the normalized kind is. -/
def importRow (kind : String) (amount : ℚ) (category : String) (d : ℕ) : Entry :=
  { type := pyCapitalize kind, amount := amount, category := category, date := d }

/-- The entries stored by importing a CSV of rows (kind, amount, category,
date): the import loop appends every row. -/
def importCSV (rows : List (String × ℚ × String × ℕ)) : List Entry :=
  rows.map (fun r => importRow r.1 r.2.1 r.2.2.1 r.2.2.2)

/-- C1: with `total_expenses ≥ 0`, the score is 0 for non-positive income,
otherwise the floor of `max 0 ((income - expenses)/income) * 100` clamped to
`[0, 100]`; in all cases it is an integer in `[0, 100]`. -/
theorem financial_health_score_spec (income expenses : ℚ) (hexp : 0 ≤ expenses) :
    (income ≤ 0 → financial_health_score income expenses = 0) ∧
    (0 < income → financial_health_score income expenses =
      min (max ⌊max 0 ((income - expenses) / income) * 100⌋ 0) 100) ∧
    0 ≤ financial_health_score income expenses ∧
    financial_health_score income expenses ≤ 100 := by
  have hratio : (0 : ℚ) ≤ max 0 ((income - expenses) / income) * 100 := by
    have := le_max_left (0 : ℚ) ((income - expenses) / income)
    positivity
  constructor
  · intro h
    simp [financial_health_score, h]
  constructor
  · intro h
    simp only [financial_health_score, not_le.mpr h, if_false]
    rw [pyInt, if_neg (not_lt.mpr hratio)]
  constructor
  · unfold financial_health_score
    split
    · exact le_refl 0
    · exact le_min (le_max_right _ 0) (by norm_num)
  · unfold financial_health_score
    split
    · norm_num
    · exact min_le_right _ 100

/-- Witness for C1 at `income = 4`, `expenses = 3`:
the score is `⌊(1/4) * 100⌋ = 25`. -/
theorem financial_health_score_spec_witness :
    (0 : ℚ) ≤ 3 ∧ financial_health_score 4 3 = 25 := by
  refine ⟨by norm_num, ?_⟩
  have h := (financial_health_score_spec 4 3 (by norm_num)).2.1 (by norm_num)
  rw [h]
  norm_num

/-- C2: for every ledger, `compute_summary` returns totals with
`savings = total_income − total_expenses`, where the totals are the sums of
the amounts of the Income and Expense entries respectively. -/
theorem compute_summary_savings (df : List Entry) :
    (compute_summary df).2.2 = (compute_summary df).1 - (compute_summary df).2.1 ∧
    (compute_summary df).1 = totalIncome df ∧
    (compute_summary df).2.1 = totalExpenses df := by
  cases df with
  | nil => exact ⟨rfl, rfl, rfl⟩
  | cons x l => exact ⟨rfl, rfl, rfl⟩

lemma fallback_not_mem_topCategoryRule (df : List Entry) (expenses : ℚ) :
    Insight.fallback ∉ topCategoryRule df expenses := by
  unfold topCategoryRule
  split
  · split
    · simp
    · dsimp only
      split <;> split <;> simp
  · simp

lemma fallback_not_mem_budgetRule (df : List Entry) (budget : Option ℚ) (thisMonth : ℕ) :
    Insight.fallback ∉ budgetRule df budget thisMonth := by
  unfold budgetRule
  cases budget with
  | none => simp
  | some b =>
    dsimp only
    split <;> simp

lemma fallback_not_mem_lowSavingsRule (income expenses : ℚ) :
    Insight.fallback ∉ lowSavingsRule income expenses := by
  unfold lowSavingsRule
  split <;> simp

/-- C3: the insight list is never empty; the fallback message appears exactly
when rules 1–3 all produced nothing, and is then the only element; when some
rule fired, the output is exactly the rule messages in the fixed order
top-category, budget, low-savings (and contains no fallback). -/
theorem generate_insights_structure (df : List Entry) (income expenses : ℚ)
    (budget : Option ℚ) (thisMonth : ℕ) :
    generate_insights df income expenses budget thisMonth ≠ [] ∧
    ((topCategoryRule df expenses ++ budgetRule df budget thisMonth ++
        lowSavingsRule income expenses = [] ∧
      generate_insights df income expenses budget thisMonth = [Insight.fallback]) ∨
     (topCategoryRule df expenses ++ budgetRule df budget thisMonth ++
        lowSavingsRule income expenses ≠ [] ∧
      generate_insights df income expenses budget thisMonth =
        topCategoryRule df expenses ++ budgetRule df budget thisMonth ++
          lowSavingsRule income expenses ∧
      Insight.fallback ∉ generate_insights df income expenses budget thisMonth)) := by
  by_cases h : topCategoryRule df expenses ++ budgetRule df budget thisMonth ++
      lowSavingsRule income expenses = []
  · constructor
    · simp [generate_insights, h]
    · exact Or.inl ⟨h, by simp [generate_insights, h]⟩
  · have hgen : generate_insights df income expenses budget thisMonth =
        topCategoryRule df expenses ++ budgetRule df budget thisMonth ++
          lowSavingsRule income expenses := by
      simp only [generate_insights]
      rw [if_neg (by simpa [List.isEmpty_iff] using h)]
    constructor
    · rw [hgen]; exact h
    · refine Or.inr ⟨h, hgen, ?_⟩
      rw [hgen]
      simp only [List.mem_append]
      rintro (⟨h1 | h2⟩ | h3)
      · exact fallback_not_mem_topCategoryRule df expenses h1
      · exact fallback_not_mem_budgetRule df budget thisMonth h2
      · exact fallback_not_mem_lowSavingsRule income expenses h3

/-- C5: the budget rule emits exactly one message when a budget is set and
none otherwise; the alert fires exactly when current-month expenses strictly
exceed the budget (equality gives the informational variant), whose
budget-used ratio is the quotient for a positive budget and 0 when the
budget is 0 (or non-positive). -/
theorem budget_rule_spec (df : List Entry) (budget : Option ℚ) (thisMonth : ℕ) :
    (budget = none ∧ budgetRule df budget thisMonth = []) ∨
    (∃ b, budget = some b ∧
      ((b < monthlyExpenses df thisMonth ∧
        budgetRule df budget thisMonth =
          [Insight.budgetAlert b (monthlyExpenses df thisMonth)]) ∨
       (monthlyExpenses df thisMonth ≤ b ∧
        ∃ pct, budgetRule df budget thisMonth =
            [Insight.budgetOk pct (monthlyExpenses df thisMonth) b] ∧
          (0 < b → pct = monthlyExpenses df thisMonth / b) ∧
          (b ≤ 0 → pct = 0)))) := by
  cases budget with
  | none => exact Or.inl ⟨rfl, rfl⟩
  | some b =>
    refine Or.inr ⟨b, rfl, ?_⟩
    by_cases h : monthlyExpenses df thisMonth > b
    · exact Or.inl ⟨h, by simp [budgetRule, if_pos h]⟩
    · refine Or.inr ⟨not_lt.mp h, if 0 < b then monthlyExpenses df thisMonth / b else 0, ?_, ?_, ?_⟩
      · simp [budgetRule, if_neg h]
      · intro hb; rw [if_pos hb]
      · intro hb; rw [if_neg (not_lt.mpr hb)]

/-- C6: the low-savings rule fires (with its single fixed message) exactly
when `income > 0` and the savings ratio is below 5%; in particular it is
skipped whenever `income ≤ 0`, and it contributes at most one message. -/
theorem low_savings_rule_spec (income expenses : ℚ) :
    (lowSavingsRule income expenses = [Insight.lowSavings] ↔
      0 < income ∧ (income - expenses) / income < 1/20) ∧
    (lowSavingsRule income expenses = [Insight.lowSavings] ∨
      lowSavingsRule income expenses = []) ∧
    (income ≤ 0 ∧ lowSavingsRule income expenses = [] ∨ 0 < income) := by
  unfold lowSavingsRule
  split
  · rename_i h
    exact ⟨iff_of_true rfl h, Or.inl rfl, Or.inr h.1⟩
  · rename_i h
    refine ⟨iff_of_false (by simp) h, Or.inr rfl, ?_⟩
    by_cases hi : 0 < income
    · exact Or.inr hi
    · exact Or.inl ⟨not_lt.mp hi, rfl⟩

/-- C8: the empty ledger is not an error: all totals are zero, the weekday
mapping is the canonical 7 names all mapped to 0, and the category and
month mappings are empty. -/
theorem empty_ledger_aggregates :
    compute_summary [] = (0, 0, 0) ∧
    expense_by_weekday [] = weekdayNames.map (fun w => (w, 0)) ∧
    (∀ p ∈ expense_by_weekday [], p.2 = 0) ∧
    expense_by_category [] = [] ∧
    (∀ monthOf, expense_by_month monthOf [] = []) ∧
    generate_insights [] 0 0 none 0 = [Insight.fallback] := by
  refine ⟨?_, rfl, ?_, rfl, fun _ => rfl, ?_⟩
  · simp [compute_summary]
  · intro p hp
    simp only [expense_by_weekday, List.mem_map] at hp
    obtain ⟨w, _, rfl⟩ := hp
    rfl
  · rfl


lemma pickMax_spec (v : String → ℚ) (l : List String) :
    ∀ b : String,
      (pickMax v b l = b ∨ pickMax v b l ∈ l) ∧
      v b ≤ v (pickMax v b l) ∧
      (∀ c ∈ l, v c ≤ v (pickMax v b l)) ∧
      (v (pickMax v b l) = v b → pickMax v b l = b) := by
  induction l with
  | nil => exact fun b => ⟨Or.inl rfl, le_refl _, by simp, fun _ => rfl⟩
  | cons x l ih =>
    intro b
    have hfold : pickMax v b (x :: l) = pickMax v (if v x > v b then x else b) l := rfl
    by_cases hx : v x > v b
    · rw [if_pos hx] at hfold
      obtain ⟨hmem, hle, hmax, htie⟩ := ih x
      rw [hfold]
      refine ⟨?_, le_trans (le_of_lt hx) hle, ?_, ?_⟩
      · rcases hmem with heq | hmm
        · rw [heq]; exact Or.inr (List.mem_cons_self x l)
        · exact Or.inr (List.mem_cons_of_mem x hmm)
      · intro c hc
        rcases List.mem_cons.mp hc with hcx | hcl
        · rw [hcx]; exact hle
        · exact hmax c hcl
      · intro heq
        exact absurd (heq ▸ hle) (not_le.mpr hx)
    · rw [if_neg hx] at hfold
      obtain ⟨hmem, hle, hmax, htie⟩ := ih b
      rw [hfold]
      refine ⟨?_, hle, ?_, htie⟩
      · rcases hmem with heq | hmm
        · exact Or.inl heq
        · exact Or.inr (List.mem_cons_of_mem x hmm)
      · intro c hc
        rcases List.mem_cons.mp hc with hcx | hcl
        · rw [hcx]; exact le_trans (not_lt.mp hx) hle
        · exact hmax c hcl

lemma pickMax_tie (v : String → ℚ) (l : List String) :
    ∀ b : String, l.Sorted (fun a c : String => a ≤ c) → (∀ c ∈ l, b ≤ c) →
      ∀ c ∈ l, v c = v (pickMax v b l) → pickMax v b l ≤ c := by
  induction l with
  | nil => intro b _ _ c hc; exact absurd hc (List.not_mem_nil c)
  | cons x l ih =>
    intro b hsort hb c hc hvc
    obtain ⟨hx, hsl⟩ := List.sorted_cons.mp hsort
    have hfold : pickMax v b (x :: l) = pickMax v (if v x > v b then x else b) l := rfl
    by_cases hgt : v x > v b
    · rw [if_pos hgt] at hfold
      rw [hfold] at hvc ⊢
      rcases List.mem_cons.mp hc with hcx | hcl
      · obtain ⟨_, _, _, htie⟩ := pickMax_spec v l x
        have hvx : v (pickMax v x l) = v x := by rw [hcx] at hvc; exact hvc.symm
        rw [htie hvx, hcx]
      · exact ih x hsl hx c hcl hvc
    · rw [if_neg hgt] at hfold
      rw [hfold] at hvc ⊢
      rcases List.mem_cons.mp hc with hcx | hcl
      · obtain ⟨_, hle, _, htie⟩ := pickMax_spec v l b
        have hcb : v c ≤ v b := by rw [hcx]; exact not_lt.mp hgt
        have hmb : v (pickMax v b l) = v b := le_antisymm (hvc ▸ hcb) hle
        rw [htie hmb]
        exact hb c hc
      · exact ih b hsl (fun y hy => hb y (List.mem_cons_of_mem x hy)) c hcl hvc

lemma sortCats_sorted (df : List Entry) :
    (sortCats df).Sorted (fun a c : String => a ≤ c) :=
  List.sorted_insertionSort _ _

lemma sortCats_perm (df : List Entry) : (sortCats df).Perm (expenseCats df) :=
  List.perm_insertionSort _ _

/-- Whenever `topCategory` returns a category, it is an Expense category with
the largest summed expense, and on ties it is the alphabetically least
maximizer. -/
lemma topCategory_max (df : List Entry) (m : String) (h : topCategory df = some m) :
    m ∈ expenseCats df ∧
    (∀ c ∈ expenseCats df, catSum df c ≤ catSum df m) ∧
    (∀ c ∈ expenseCats df, catSum df c = catSum df m → m ≤ c) := by
  unfold topCategory at h
  rcases hsc : sortCats df with _ | ⟨c, cs⟩
  · rw [hsc] at h; exact absurd h (by simp)
  · rw [hsc] at h
    have hm : m = pickMax (catSum df) c cs := by simpa using h.symm
    have hsort := sortCats_sorted df
    rw [hsc] at hsort
    obtain ⟨hc, hscs⟩ := List.sorted_cons.mp hsort
    obtain ⟨hmem, hle, hmax, htie⟩ := pickMax_spec (catSum df) cs c
    have hmem2 : m ∈ sortCats df := by
      rw [hsc, hm]
      rcases hmem with heq | hmm
      · rw [heq]; exact List.mem_cons_self c cs
      · exact List.mem_cons_of_mem c hmm
    refine ⟨(sortCats_perm df).mem_iff.mp hmem2, ?_, ?_⟩
    · intro y hy
      have hy2 : y ∈ sortCats df := (sortCats_perm df).mem_iff.mpr hy
      rw [hsc] at hy2
      rw [hm]
      rcases List.mem_cons.mp hy2 with hyc | hy3
      · rw [hyc]; exact hle
      · exact hmax y hy3
    · intro y hy hvy
      have hy2 : y ∈ sortCats df := (sortCats_perm df).mem_iff.mpr hy
      rw [hsc] at hy2
      rw [hm] at hvy ⊢
      rcases List.mem_cons.mp hy2 with hyc | hy3
      · have hvm : catSum df (pickMax (catSum df) c cs) = catSum df c := by
          rw [hyc] at hvy; exact hvy.symm
        rw [htie hvm, hyc]
      · exact pickMax_tie (catSum df) cs c hscs hc y hy3 hvy

lemma hasExpense_guard (df : List Entry) (h : hasExpense df = true) :
    (!df.isEmpty && hasExpense df) = true := by
  cases df with
  | nil => simp [hasExpense] at h
  | cons x l => simp [h]

lemma hasExpense_iff (df : List Entry) : hasExpense df = true ↔ expenseCats df ≠ [] := by
  simp [hasExpense, expenseCats, List.any_eq_true, List.dedup_eq_nil, List.map_eq_nil_iff,
    List.filter_eq_nil_iff]

lemma sortCats_ne_nil (df : List Entry) (h : hasExpense df = true) : sortCats df ≠ [] := by
  intro hnil
  have hlen := (sortCats_perm df).length_eq
  rw [hnil] at hlen
  exact (hasExpense_iff df).mp h (List.eq_nil_of_length_eq_zero hlen.symm)

/-- C4: the top-category rule emits one message exactly when the ledger has
an Expense entry; the message names a category with the largest summed
expense, carries the share `top / total_expenses` (0 when total expenses are
0, with no division error), and is the warning variant exactly when that
share exceeds 0.40. -/
theorem top_category_rule_spec (df : List Entry) (hnn : 0 ≤ totalExpenses df) :
    (hasExpense df = false ∧ topCategoryRule df (totalExpenses df) = []) ∨
    (hasExpense df = true ∧
      ∃ m pct, m ∈ expenseCats df ∧
        (∀ c ∈ expenseCats df, catSum df c ≤ catSum df m) ∧
        (totalExpenses df = 0 → pct = 0) ∧
        (totalExpenses df ≠ 0 → pct = catSum df m / totalExpenses df) ∧
        ((2/5 < pct ∧ topCategoryRule df (totalExpenses df) = [Insight.topWarn m pct]) ∨
         (pct ≤ 2/5 ∧ topCategoryRule df (totalExpenses df) = [Insight.topOk m pct]))) := by
  by_cases hE : hasExpense df = true
  · rcases hsc : sortCats df with _ | ⟨c, cs⟩
    · exact absurd hsc (sortCats_ne_nil df hE)
    · have htop : topCategory df = some (pickMax (catSum df) c cs) := by
        unfold topCategory; rw [hsc]
      obtain ⟨hmem, hmax, _⟩ := topCategory_max df (pickMax (catSum df) c cs) htop
      refine Or.inr ⟨hE, pickMax (catSum df) c cs,
        if totalExpenses df > 0 then catSum df (pickMax (catSum df) c cs) / totalExpenses df
          else 0, hmem, hmax, ?_, ?_, ?_⟩
      · intro h0; rw [if_neg (by rw [h0]; exact lt_irrefl 0)]
      · intro hne; rw [if_pos (lt_of_le_of_ne hnn (Ne.symm hne))]
      · have hrule : topCategoryRule df (totalExpenses df) =
            if (if totalExpenses df > 0 then
                  catSum df (pickMax (catSum df) c cs) / totalExpenses df else 0) > 2/5 then
              [Insight.topWarn (pickMax (catSum df) c cs)
                (if totalExpenses df > 0 then
                  catSum df (pickMax (catSum df) c cs) / totalExpenses df else 0)]
            else
              [Insight.topOk (pickMax (catSum df) c cs)
                (if totalExpenses df > 0 then
                  catSum df (pickMax (catSum df) c cs) / totalExpenses df else 0)] := by
          unfold topCategoryRule
          rw [if_pos (hasExpense_guard df hE), htop]
        by_cases hp : (if totalExpenses df > 0 then
            catSum df (pickMax (catSum df) c cs) / totalExpenses df else 0) > 2/5
        · exact Or.inl ⟨hp, by rw [hrule, if_pos hp]⟩
        · exact Or.inr ⟨not_lt.mp hp, by rw [hrule, if_neg hp]⟩
  · have hE2 : hasExpense df = false := by
      cases hb : hasExpense df
      · rfl
      · exact absurd hb hE
    refine Or.inl ⟨hE2, ?_⟩
    unfold topCategoryRule
    rw [if_neg (by rw [hE2]; simp)]

/-- Witness for C4 at the one-entry ledger with a single Expense of 5 in
category Food: total expenses are 5 ≥ 0, and the rule fires with the
warning variant at share 100%. -/
theorem top_category_rule_spec_witness :
    (0 : ℚ) ≤ totalExpenses [Entry.mk "Expense" 5 "Food" 0] ∧
    ((hasExpense [Entry.mk "Expense" 5 "Food" 0] = false ∧
      topCategoryRule [Entry.mk "Expense" 5 "Food" 0]
        (totalExpenses [Entry.mk "Expense" 5 "Food" 0]) = []) ∨
     (hasExpense [Entry.mk "Expense" 5 "Food" 0] = true ∧
      ∃ m pct, m ∈ expenseCats [Entry.mk "Expense" 5 "Food" 0] ∧
        (∀ c ∈ expenseCats [Entry.mk "Expense" 5 "Food" 0],
          catSum [Entry.mk "Expense" 5 "Food" 0] c ≤ catSum [Entry.mk "Expense" 5 "Food" 0] m) ∧
        (totalExpenses [Entry.mk "Expense" 5 "Food" 0] = 0 → pct = 0) ∧
        (totalExpenses [Entry.mk "Expense" 5 "Food" 0] ≠ 0 →
          pct = catSum [Entry.mk "Expense" 5 "Food" 0] m /
            totalExpenses [Entry.mk "Expense" 5 "Food" 0]) ∧
        ((2/5 < pct ∧ topCategoryRule [Entry.mk "Expense" 5 "Food" 0]
            (totalExpenses [Entry.mk "Expense" 5 "Food" 0]) = [Insight.topWarn m pct]) ∨
         (pct ≤ 2/5 ∧ topCategoryRule [Entry.mk "Expense" 5 "Food" 0]
            (totalExpenses [Entry.mk "Expense" 5 "Food" 0]) = [Insight.topOk m pct])))) :=
  ⟨by norm_num [totalExpenses],
   top_category_rule_spec [Entry.mk "Expense" 5 "Food" 0] (by norm_num [totalExpenses])⟩

/-- C9: `generate_insights` is a deterministic function of its inputs (equal
inputs give equal output lists), and the category the top-category rule
names is picked by a fixed tie-break: it is a maximizer of the summed
expense, and on ties the alphabetically least maximizer. -/
theorem insights_deterministic_tiebreak (df : List Entry) (m : String)
    (h : topCategory df = some m) :
    (∀ df2 income expenses budget thisMonth, df2 = df →
      generate_insights df2 income expenses budget thisMonth =
        generate_insights df income expenses budget thisMonth) ∧
    m ∈ expenseCats df ∧
    (∀ c ∈ expenseCats df, catSum df c ≤ catSum df m) ∧
    (∀ c ∈ expenseCats df, catSum df c = catSum df m → m ≤ c) := by
  obtain ⟨h1, h2, h3⟩ := topCategory_max df m h
  exact ⟨fun df2 income expenses budget thisMonth hd => by rw [hd], h1, h2, h3⟩

/-- Witness for C9 at the one-Expense ledger, whose top category is Food. -/
theorem insights_deterministic_tiebreak_witness :
    topCategory [Entry.mk "Expense" 5 "Food" 3] = some "Food" ∧
    ((∀ df2 income expenses budget thisMonth, df2 = [Entry.mk "Expense" 5 "Food" 3] →
      generate_insights df2 income expenses budget thisMonth =
        generate_insights [Entry.mk "Expense" 5 "Food" 3] income expenses budget thisMonth) ∧
    "Food" ∈ expenseCats [Entry.mk "Expense" 5 "Food" 3] ∧
    (∀ c ∈ expenseCats [Entry.mk "Expense" 5 "Food" 3],
      catSum [Entry.mk "Expense" 5 "Food" 3] c ≤ catSum [Entry.mk "Expense" 5 "Food" 3] "Food") ∧
    (∀ c ∈ expenseCats [Entry.mk "Expense" 5 "Food" 3],
      catSum [Entry.mk "Expense" 5 "Food" 3] c = catSum [Entry.mk "Expense" 5 "Food" 3] "Food" →
        "Food" ≤ c)) :=
  ⟨rfl, insights_deterministic_tiebreak [Entry.mk "Expense" 5 "Food" 3] "Food" rfl⟩

lemma weekdaySum_cons (x : Entry) (df : List Entry) (w : String) :
    weekdaySum (x :: df) w =
      (if x.type == "Expense" && dayName x.date == w then x.amount else 0) + weekdaySum df w := by
  by_cases h : (x.type == "Expense" && dayName x.date == w) = true
  · simp [weekdaySum, List.filter_cons, h]
  · simp [weekdaySum, List.filter_cons, h]

lemma totalExpenses_cons (x : Entry) (df : List Entry) :
    totalExpenses (x :: df) =
      (if x.type == "Expense" then x.amount else 0) + totalExpenses df := by
  by_cases h : (x.type == "Expense") = true
  · simp [totalExpenses, List.filter_cons, h]
  · simp [totalExpenses, List.filter_cons, h]

lemma weekday_contrib (x : Entry) :
    (weekdayNames.map (fun w =>
      if x.type == "Expense" && dayName x.date == w then x.amount else 0)).sum =
      if x.type == "Expense" then x.amount else 0 := by
  by_cases hT : (x.type == "Expense") = true
  · have h7 : x.date % 7 = 0 ∨ x.date % 7 = 1 ∨ x.date % 7 = 2 ∨ x.date % 7 = 3 ∨
        x.date % 7 = 4 ∨ x.date % 7 = 5 ∨ x.date % 7 = 6 := by omega
    rcases h7 with hk | hk | hk | hk | hk | hk | hk <;>
      simp [weekdayNames, dayName, hk, hT]
  · simp [weekdayNames, hT]

/-- C7: the weekday heatmap aggregate has exactly 7 entries, keyed by the
canonical Monday→Sunday names in order; a weekday with no Expense entry maps
to 0, and the 7 values sum to the Expense total. -/
theorem expense_by_weekday_spec (df : List Entry) :
    (expense_by_weekday df).length = 7 ∧
    (expense_by_weekday df).map Prod.fst = weekdayNames ∧
    ((expense_by_weekday df).map Prod.snd).sum = totalExpenses df ∧
    ∀ p ∈ expense_by_weekday df,
      p.2 = 0 ∨ ∃ x ∈ df, x.type = "Expense" ∧ dayName x.date = p.1 := by
  have hfst : (Prod.fst ∘ fun w : String => (w, weekdaySum df w)) = id := rfl
  refine ⟨by simp [expense_by_weekday, weekdayNames],
    by simp only [expense_by_weekday, List.map_map, hfst, List.map_id], ?_, ?_⟩
  · have key : ∀ l : List Entry, (weekdayNames.map (fun w => weekdaySum l w)).sum =
        totalExpenses l := by
      intro l
      induction l with
      | nil => simp [weekdayNames, weekdaySum, totalExpenses]
      | cons x l ih =>
        simp only [weekdaySum_cons, List.sum_map_add, ih, totalExpenses_cons, weekday_contrib]
    have : (expense_by_weekday df).map Prod.snd = weekdayNames.map (fun w => weekdaySum df w) := by
      simp [expense_by_weekday, List.map_map, Function.comp]
    rw [this, key]
  · intro p hp
    simp only [expense_by_weekday, List.mem_map] at hp
    obtain ⟨w, hw, rfl⟩ := hp
    rcases hfil : df.filter (fun x => x.type == "Expense" && dayName x.date == w) with _ | ⟨y, ys⟩
    · exact Or.inl (by simp [weekdaySum, hfil])
    · have hy : y ∈ df.filter (fun x => x.type == "Expense" && dayName x.date == w) := by
        rw [hfil]; exact List.mem_cons_self y ys
      obtain ⟨hydf, hpred⟩ := List.mem_filter.mp hy
      simp only [Bool.and_eq_true, beq_iff_eq] at hpred
      exact Or.inr ⟨y, hydf, hpred.1, hpred.2⟩

/-- Counterexample to C10: the import loop (app.py, lines 196–201) performs
no kind validation — a row whose capitalized kind is "Transfer", which is
neither "Income" nor "Expense", is stored all the same. -/
theorem csv_import_unknown_kind_stored :
    importCSV [("transfer", 5, "Misc", 0)] = [Entry.mk "Transfer" 5 "Misc" 0] ∧
    (Entry.mk "Transfer" 5 "Misc" 0).type ≠ "Income" ∧
    (Entry.mk "Transfer" 5 "Misc" 0).type ≠ "Expense" ∧
    importCSV [("transfer", 5, "Misc", 0)] ≠ [] :=
  ⟨rfl, by decide, by decide, by intro h; exact absurd (rfl.trans h : [Entry.mk "Transfer" 5 "Misc" 0] = []) (by simp)⟩

/-- C10 amended: the CSV import case-normalizes each kind with Python
`capitalize`, but a row with an unrecognized normalized kind is stored, not
rejected; such a stored entry contributes to no analytics aggregate (the
core filters match only "Income" / "Expense"). -/
theorem csv_import_normalizes_and_filters (kind : String) (amount : ℚ) (category : String)
    (d : ℕ) (df : List Entry) (rows : List (String × ℚ × String × ℕ))
    (hki : pyCapitalize kind ≠ "Income") (hke : pyCapitalize kind ≠ "Expense") :
    importCSV ((kind, amount, category, d) :: rows) =
      importRow kind amount category d :: importCSV rows ∧
    (importRow kind amount category d).type = pyCapitalize kind ∧
    totalIncome (importRow kind amount category d :: df) = totalIncome df ∧
    totalExpenses (importRow kind amount category d :: df) = totalExpenses df ∧
    expenseCats (importRow kind amount category d :: df) = expenseCats df ∧
    hasExpense (importRow kind amount category d :: df) = hasExpense df := by
  refine ⟨rfl, rfl, ?_, ?_, ?_, ?_⟩
  · simp [totalIncome, List.filter_cons, importRow, hki]
  · simp [totalExpenses, List.filter_cons, importRow, hke]
  · simp [expenseCats, List.filter_cons, importRow, hke]
  · simp [hasExpense, importRow, hke]

/-- Witness for C10's amended claim at the row ("transfer", 5, "Misc", 0)
against a one-Income ledger. -/
theorem csv_import_normalizes_and_filters_witness :
    pyCapitalize "transfer" ≠ "Income" ∧ pyCapitalize "transfer" ≠ "Expense" ∧
    (importCSV [("transfer", 5, "Misc", 0)] =
      importRow "transfer" 5 "Misc" 0 :: importCSV [] ∧
    (importRow "transfer" 5 "Misc" 0).type = pyCapitalize "transfer" ∧
    totalIncome (importRow "transfer" 5 "Misc" 0 :: [Entry.mk "Income" 100 "Other" 0]) =
      totalIncome [Entry.mk "Income" 100 "Other" 0] ∧
    totalExpenses (importRow "transfer" 5 "Misc" 0 :: [Entry.mk "Income" 100 "Other" 0]) =
      totalExpenses [Entry.mk "Income" 100 "Other" 0] ∧
    expenseCats (importRow "transfer" 5 "Misc" 0 :: [Entry.mk "Income" 100 "Other" 0]) =
      expenseCats [Entry.mk "Income" 100 "Other" 0] ∧
    hasExpense (importRow "transfer" 5 "Misc" 0 :: [Entry.mk "Income" 100 "Other" 0]) =
      hasExpense [Entry.mk "Income" 100 "Other" 0]) :=
  ⟨by decide, by decide,
   csv_import_normalizes_and_filters "transfer" 5 "Misc" 0
     [Entry.mk "Income" 100 "Other" 0] [] (by decide) (by decide)⟩
